import Mathlib

/-!
# libCADShape NURBS kernel: data model and construction helpers

A shallow embedding of `src/nurbs.h` (the data model and the declared query
surface) and of `src/nurbs_make.c` (the construction helpers), followed by
the properties established about them.

Conventions of the embedding

* The C scalar `double` is the type parameter `R`.  The construction helpers
  never inspect a scalar, so what is proved about them holds for every choice
  of `R`; statements over exact arithmetic take `R` to be an ordered field or
  the reals.
* A C pointer result `nurbs_CurveData*` is an `Option`: `none` is `NULL`.
* An array argument passed as pointer plus count (`points`, `np`) is a list
  together with the separately supplied count, exactly as the C signature
  keeps the two apart.
* `uint8_t` / `uint32_t` / `size_t` fields and counts are natural numbers.
-/

set_option autoImplicit false

/-! ## Data model (`src/nurbs.h`) -/

/-- The struct `nurbs_Point` (nurbs.h, lines 45 to 49): the coordinates x, y, z. -/
structure nurbs_Point (R : Type) where
  x : R
  y : R
  z : R
  deriving DecidableEq

/-- The struct `nurbs_Vector` (nurbs.h, lines 51 to 55): the components x, y, z. -/
structure nurbs_Vector (R : Type) where
  x : R
  y : R
  z : R
  deriving DecidableEq

/-- The struct `nurbs_CurveData` (nurbs.h, lines 67 to 73): degree, the number of
control points, the number of knots, the control point array `cv` (elements of
type `nurbs_Point`) and the knot array. -/
structure nurbs_CurveData (R : Type) where
  degree : Nat
  ncv : Nat
  nknots : Nat
  cv : List (nurbs_Point R)
  knots : List R
  deriving DecidableEq

/-- The struct `nurbs_CurveSample` (nurbs.h, lines 92 to 95): a parameter and a length. -/
structure nurbs_CurveSample (R : Type) where
  u : R
  len : R
  deriving DecidableEq

/-- The struct `nurbs_Curve` (nurbs.h, lines 99 to 105): the fields of the macro
`GEOM_NURBS_DATA`, a type tag and the curve data. -/
structure nurbs_Curve (R : Type) where
  type : Int
  nurbs_data : nurbs_CurveData R
  deriving DecidableEq

/-! ## Construction helpers (`src/nurbs_make.c`) -/

/-- The function `nurbs__makeEllipseArc` (nurbs_make.c, lines 25 to 28): the body is
`return NULL;`. -/
def nurbs__makeEllipseArc {R : Type} (_center : nurbs_Point R) (_xaxis : nurbs_Vector R)
    (_yaxis : nurbs_Vector R) (_minAngle : R) (_maxAngle : R) : Option (nurbs_CurveData R) :=
  none

/-- The function `nurbs__makeArc` (nurbs_make.c, lines 30 to 33).  Its body is the single call
`nurbs__makeellipsearc(center, nurbs__Vecmul(radius, nurbs__Vecnormalized(xaxis)),
nurbs__Vecmul(radius, nurbs__Vecnormalized(yaxis)), minAngle, maxAngle)`.
The three functions it calls are declared in `nurbs_internal.h`, which is not among the
sources, so they are parameters here, under the names the call site uses.  The callee is
spelled `nurbs__makeellipsearc` at the call site; the ellipse-arc helper defined in the same
file is spelled `nurbs__makeEllipseArc`. -/
def nurbs__makeArc {R : Type}
    (nurbs__Vecmul : R → nurbs_Vector R → nurbs_Vector R)
    (nurbs__Vecnormalized : nurbs_Vector R → nurbs_Vector R)
    (nurbs__makeellipsearc :
      nurbs_Point R → nurbs_Vector R → nurbs_Vector R → R → R → Option (nurbs_CurveData R))
    (center : nurbs_Point R) (xaxis : nurbs_Vector R) (yaxis : nurbs_Vector R)
    (radius : R) (minAngle : R) (maxAngle : R) : Option (nurbs_CurveData R) :=
  nurbs__makeellipsearc center (nurbs__Vecmul radius (nurbs__Vecnormalized xaxis))
    (nurbs__Vecmul radius (nurbs__Vecnormalized yaxis)) minAngle maxAngle

/-- The function `nurbs__makePolyline` (nurbs_make.c, lines 35 to 38): the body is
`return NULL;`. -/
def nurbs__makePolyline {R : Type} (_points : List (nurbs_Point R)) (_np : Nat) :
    Option (nurbs_CurveData R) :=
  none

/-- The function `nurbs__makeRationalBezier` (nurbs_make.c, lines 40 to 43): the body is
`return NULL;`. -/
def nurbs__makeRationalBezier {R : Type} (_points : List (nurbs_Point R)) (_np : Nat)
    (_weights : List R) (_nw : Nat) : Option (nurbs_CurveData R) :=
  none

/-! ## Specification-side definitions -/

/-- The arc helper as the behavioural description words it: the ellipse-arc builder applied
to the same center, to the two axes `radius * normalized(xaxis)` and
`radius * normalized(yaxis)`, and to the same angle range, in that order. -/
def nurbs__makeArc_spec {R : Type}
    (scale : R → nurbs_Vector R → nurbs_Vector R)
    (normalized : nurbs_Vector R → nurbs_Vector R)
    (ellipseArcBuilder :
      nurbs_Point R → nurbs_Vector R → nurbs_Vector R → R → R → Option (nurbs_CurveData R))
    (center : nurbs_Point R) (xaxis : nurbs_Vector R) (yaxis : nurbs_Vector R)
    (radius : R) (minAngle : R) (maxAngle : R) : Option (nurbs_CurveData R) :=
  let scaledX := scale radius (normalized xaxis)
  let scaledY := scale radius (normalized yaxis)
  ellipseArcBuilder center scaledX scaledY minAngle maxAngle

/-- The componentwise product `s * v` of a scalar and a vector. -/
def nurbs_Vector.scale {R : Type} [Mul R] (s : R) (v : nurbs_Vector R) : nurbs_Vector R :=
  ⟨s * v.x, s * v.y, s * v.z⟩

/-- The Euclidean length `|v|` of a vector, the square root being supplied by the scalar
type. -/
def nurbs_Vector.length {R : Type} [Add R] [Mul R] (sqrt : R → R) (v : nurbs_Vector R) : R :=
  sqrt (v.x * v.x + v.y * v.y + v.z * v.z)

/-- The vector `v / |v|`. -/
def nurbs_Vector.unit {R : Type} [Add R] [Mul R] [Div R] (sqrt : R → R)
    (v : nurbs_Vector R) : nurbs_Vector R :=
  ⟨v.x / v.length sqrt, v.y / v.length sqrt, v.z / v.length sqrt⟩

/-! ## Query surface declared in `src/nurbs.h` without a definition in the sources -/

/-- Modelled from the spec: the error kinds of the kernel.  No error type is declared in the
sources; section 7 of the specification lists `InvalidConstruction`, `ParameterOutOfDomain`,
`DegenerateTangent`, `InvalidSplitParameter` and `NumericNonConvergence`. -/
inductive nurbs_Error where
  | InvalidConstruction
  | ParameterOutOfDomain
  | DegenerateTangent
  | InvalidSplitParameter
  | NumericNonConvergence
  deriving DecidableEq

/-- Modelled from the spec: `nurbs_curve_domain` is declared at nurbs.h line 159 and has no
definition in the sources.  The specification gives the domain as the interval
`[U[p], U[n+1]]` of the knot vector `U`, with `p` the degree and `n = ncv - 1`; the result
is the pair `(uMin, uMax)` that the C function writes through `min` and `max`. -/
def nurbs_curve_domain {R : Type} [Zero R] (curve : nurbs_Curve R) : R × R :=
  (curve.nurbs_data.knots.getD curve.nurbs_data.degree 0,
    curve.nurbs_data.knots.getD curve.nurbs_data.ncv 0)

/-- Modelled from the spec: `nurbs_curve_reverse` is declared at nurbs.h line 157 and has no
definition in the sources.  The specification (4.2, Reversal): the knot vector is
re-parameterized by `u' = uMin + uMax - u` and the control points are reversed in order
(the curve data of the sources carries no weight array beside `cv`).
The C function updates the curve in place; here the updated curve is returned. -/
def nurbs_curve_reverse {R : Type} [Zero R] [Add R] [Sub R] (curve : nurbs_Curve R) :
    nurbs_Curve R :=
  let uMin := (nurbs_curve_domain curve).1
  let uMax := (nurbs_curve_domain curve).2
  { curve with
    nurbs_data :=
      { curve.nurbs_data with
        cv := curve.nurbs_data.cv.reverse
        knots := (curve.nurbs_data.knots.map (fun k => uMin + uMax - k)).reverse } }

/-- The corner-cutting combination `(1 - a) * p + a * q` of two control points. -/
def nurbs_Point.blend {R : Type} [One R] [Add R] [Sub R] [Mul R] (a : R)
    (p q : nurbs_Point R) : nurbs_Point R :=
  ⟨(1 - a) * p.x + a * q.x, (1 - a) * p.y + a * q.y, (1 - a) * p.z + a * q.z⟩

/-- Modelled from the spec: one knot insertion, the step the Splitter (4.5) repeats.  With
`k` the span of `u` (`U[k] ≤ u < U[k+1]`), the knot `u` is inserted after position `k` and the
control points are updated by the standard corner cutting: point `i` is kept for
`i ≤ k - degree`, is `(1 - a_i) * P[i-1] + a_i * P[i]` with
`a_i = (u - U[i]) / (U[i+degree] - U[i])` for `k - degree < i ≤ k`, and is `P[i-1]` above. -/
def nurbs_insertKnot {R : Type} [LinearOrderedField R] (degree : Nat)
    (data : List R × List (nurbs_Point R)) (u : R) : List R × List (nurbs_Point R) :=
  let knots := data.1
  let cv := data.2
  let k := (knots.filter (fun t => t ≤ u)).length - 1
  let newKnots := knots.take (k + 1) ++ u :: knots.drop (k + 1)
  let newCv := (List.range (cv.length + 1)).map fun i =>
    if i + degree ≤ k then cv.getD i ⟨0, 0, 0⟩
    else if i ≤ k then
      nurbs_Point.blend ((u - knots.getD i 0) / (knots.getD (i + degree) 0 - knots.getD i 0))
        (cv.getD (i - 1) ⟨0, 0, 0⟩) (cv.getD i ⟨0, 0, 0⟩)
    else cv.getD (i - 1) ⟨0, 0, 0⟩
  (newKnots, newCv)

/-- Modelled from the spec: `nurbs_curve_split` is declared at nurbs.h line 183 and has no
definition in the sources.  The specification (4.5): the call fails with
`InvalidSplitParameter` if `u` is outside the open domain interval; otherwise `u` is inserted
as a knot until its multiplicity equals the degree and the control points and knots are
partitioned into two clamped curves that meet at `u`.  The result is the error kind, or the
list of curves the C function writes through `curves`. -/
def nurbs_curve_split {R : Type} [LinearOrderedField R] (curve : nurbs_Curve R) (u : R) :
    Except nurbs_Error (List (nurbs_Curve R)) :=
  let uMin := (nurbs_curve_domain curve).1
  let uMax := (nurbs_curve_domain curve).2
  if uMin < u ∧ u < uMax then
    let d := curve.nurbs_data
    let mult := (d.knots.filter (fun t => t = u)).length
    let refined := (List.replicate (d.degree - mult) u).foldl (nurbs_insertKnot d.degree)
      (d.knots, d.cv)
    let below := (refined.1.filter (fun t => t < u)).length
    let left : nurbs_CurveData R :=
      { degree := d.degree
        ncv := below
        nknots := below + d.degree + 1
        cv := refined.2.take below
        knots := refined.1.take below ++ List.replicate (d.degree + 1) u }
    let right : nurbs_CurveData R :=
      { degree := d.degree
        ncv := refined.2.length - (below - 1)
        nknots := refined.2.length - (below - 1) + d.degree + 1
        cv := refined.2.drop (below - 1)
        knots := List.replicate (d.degree + 1) u ++ refined.1.drop (below + d.degree) }
    .ok [⟨curve.type, left⟩, ⟨curve.type, right⟩]
  else .error .InvalidSplitParameter

/-- Modelled from the spec: the output count a list-producing query writes through its count
argument (`nc` of `nurbs_curve_split`).  Section 6 of the specification: an error surfaces
with an output count of zero; on success the count is the number of items written. -/
def nurbs_outputCount {ε α : Type} : Except ε (List α) → Nat
  | .error _ => 0
  | .ok l => l.length

/-! ## Auxiliary lemmas -/

/-- A non-zero vector has positive Euclidean length. -/
theorem nurbs_Vector.length_pos (v : nurbs_Vector ℝ) (hv : v ≠ ⟨0, 0, 0⟩) :
    0 < v.length Real.sqrt := by
  unfold nurbs_Vector.length
  apply Real.sqrt_pos.mpr
  rcases v with ⟨x, y, z⟩
  have hne : x ≠ 0 ∨ y ≠ 0 ∨ z ≠ 0 := by
    by_contra hcon
    push_neg at hcon
    obtain ⟨hx, hy, hz⟩ := hcon
    exact hv (by rw [hx, hy, hz])
  rcases hne with h | h | h
  · have := mul_self_pos.mpr h
    nlinarith [mul_self_nonneg y, mul_self_nonneg z]
  · have := mul_self_pos.mpr h
    nlinarith [mul_self_nonneg x, mul_self_nonneg z]
  · have := mul_self_pos.mpr h
    nlinarith [mul_self_nonneg x, mul_self_nonneg y]

/-- Scaling the unit vector of a non-zero vector by `r` gives a vector of length `|r|`. -/
theorem nurbs_Vector.length_scale_unit (r : ℝ) (v : nurbs_Vector ℝ) (hv : v ≠ ⟨0, 0, 0⟩) :
    (nurbs_Vector.scale r (v.unit Real.sqrt)).length Real.sqrt = |r| := by
  have hpos := nurbs_Vector.length_pos v hv
  have hne : v.length Real.sqrt ≠ 0 := ne_of_gt hpos
  have hsq : v.length Real.sqrt * v.length Real.sqrt
      = v.x * v.x + v.y * v.y + v.z * v.z := by
    unfold nurbs_Vector.length
    exact Real.mul_self_sqrt
      (by nlinarith [mul_self_nonneg v.x, mul_self_nonneg v.y, mul_self_nonneg v.z])
  set n := v.length Real.sqrt with hn
  have hinner : r * (v.x / n) * (r * (v.x / n)) + r * (v.y / n) * (r * (v.y / n))
      + r * (v.z / n) * (r * (v.z / n)) = r ^ 2 := by
    have hfactor : r * (v.x / n) * (r * (v.x / n)) + r * (v.y / n) * (r * (v.y / n))
        + r * (v.z / n) * (r * (v.z / n))
        = r ^ 2 * ((v.x * v.x + v.y * v.y + v.z * v.z) / (n * n)) := by
      field_simp
      ring
    rw [hfactor, ← hsq, div_self (mul_ne_zero hne hne), mul_one]
  show Real.sqrt (r * (v.x / n) * (r * (v.x / n)) + r * (v.y / n) * (r * (v.y / n))
      + r * (v.z / n) * (r * (v.z / n))) = |r|
  rw [hinner]
  exact Real.sqrt_sq_eq_abs r

/-- Scaling the unit vector of `v` by `r` is scaling `v` itself by `r / |v|`. -/
theorem nurbs_Vector.scale_unit_parallel (r : ℝ) (v : nurbs_Vector ℝ) :
    nurbs_Vector.scale r (v.unit Real.sqrt)
      = nurbs_Vector.scale (r / v.length Real.sqrt) v := by
  simp only [nurbs_Vector.scale, nurbs_Vector.unit, nurbs_Vector.mk.injEq]
  refine ⟨?_, ?_, ?_⟩ <;> ring

/-- Entry `i` of a mapped and reversed list is the image of entry `length - 1 - i`. -/
theorem getD_reverse_map {R : Type} [Zero R] (f : R → R) (l : List R) (i : Nat)
    (hi : i < l.length) :
    ((l.map f).reverse).getD i 0 = f (l.getD (l.length - 1 - i) 0) := by
  have h1 : l.length - 1 - i < l.length := by omega
  rw [List.getD_eq_getElem?_getD, List.getD_eq_getElem?_getD,
    List.getElem?_reverse (by simpa using hi), List.length_map, List.getElem?_map,
    List.getElem?_eq_getElem h1]
  simp

/-- Reversal keeps the domain of a curve whose knot array has `ncv + degree + 1` entries. -/
theorem nurbs_curve_domain_reverse {R : Type} [AddCommGroup R] (curve : nurbs_Curve R)
    (hk : curve.nurbs_data.knots.length
      = curve.nurbs_data.ncv + curve.nurbs_data.degree + 1) :
    nurbs_curve_domain (nurbs_curve_reverse curve) = nurbs_curve_domain curve := by
  have h1 : curve.nurbs_data.knots.length - 1 - curve.nurbs_data.degree
      = curve.nurbs_data.ncv := by omega
  have h2 : curve.nurbs_data.knots.length - 1 - curve.nurbs_data.ncv
      = curve.nurbs_data.degree := by omega
  simp only [nurbs_curve_domain, nurbs_curve_reverse]
  rw [getD_reverse_map _ _ _ (by omega), getD_reverse_map _ _ _ (by omega), h1, h2]
  ext <;> simp

/-- Reversing twice restores the curve, control points and knots alike. -/
theorem nurbs_curve_reverse_reverse {R : Type} [AddCommGroup R] (curve : nurbs_Curve R)
    (hk : curve.nurbs_data.knots.length
      = curve.nurbs_data.ncv + curve.nurbs_data.degree + 1) :
    nurbs_curve_reverse (nurbs_curve_reverse curve) = curve := by
  have hdom := nurbs_curve_domain_reverse curve hk
  rcases curve with ⟨ty, ⟨deg, ncv, nk, cv, knots⟩⟩
  simp only [nurbs_curve_reverse] at hdom ⊢
  simp only [hdom, List.reverse_reverse, List.map_reverse, List.map_map]
  congr 2
  conv_rhs => rw [← List.map_id knots]
  apply List.map_congr_left
  intro k _
  simp

/-- At a parameter strictly inside the domain the split succeeds and yields two curves. -/
theorem nurbs_curve_split_interior {R : Type} [LinearOrderedField R] (curve : nurbs_Curve R)
    (u : R) (h1 : (nurbs_curve_domain curve).1 < u) (h2 : u < (nurbs_curve_domain curve).2) :
    nurbs_outputCount (nurbs_curve_split curve u) = 2 := by
  unfold nurbs_curve_split
  simp only [h1, h2, and_self, if_true]
  rfl

/-! ## Properties of the construction helpers -/

/-- C1: for every input, each of `nurbs__makeEllipseArc`, `nurbs__makePolyline` and
`nurbs__makeRationalBezier` returns the null result. -/
theorem stub_helpers_return_null {R : Type}
    (center : nurbs_Point R) (xaxis yaxis : nurbs_Vector R) (minAngle maxAngle : R)
    (points : List (nurbs_Point R)) (np : Nat) (weights : List R) (nw : Nat) :
    nurbs__makeEllipseArc center xaxis yaxis minAngle maxAngle = none
      ∧ nurbs__makePolyline points np = none
      ∧ nurbs__makeRationalBezier points np weights nw = none :=
  ⟨rfl, rfl, rfl⟩

/-- C3 (counterexample): a polyline input with two points and a rational Bezier input with
two points and two weights both get the null result. -/
theorem valid_input_gets_null :
    ([(⟨0, 0, 0⟩ : nurbs_Point ℚ), ⟨1, 0, 0⟩].length = 2 ∧ 2 ≤ 2
      ∧ ¬ ∃ d, nurbs__makePolyline [(⟨0, 0, 0⟩ : nurbs_Point ℚ), ⟨1, 0, 0⟩] 2 = some d)
    ∧ ([(1 : ℚ), 1].length = 2
      ∧ ¬ ∃ d, nurbs__makeRationalBezier [(⟨0, 0, 0⟩ : nurbs_Point ℚ), ⟨1, 0, 0⟩] 2
          [(1 : ℚ), 1] 2 = some d) := by
  refine ⟨⟨rfl, le_refl 2, ?_⟩, rfl, ?_⟩
  · rintro ⟨d, hd⟩
    simp [nurbs__makePolyline] at hd
  · rintro ⟨d, hd⟩
    simp [nurbs__makeRationalBezier] at hd

/-- C3 (amended): the two helpers are unimplemented, so they return the null result for valid
input too: for every polyline input with at least two points `nurbs__makePolyline` returns
null, and for every rational Bezier input with at least two points and a weight count equal
to the point count `nurbs__makeRationalBezier` returns null. -/
theorem null_on_valid_input {R : Type}
    (points : List (nurbs_Point R)) (np : Nat) (weights : List R) (nw : Nat)
    (_hlen : points.length = np) (_hnp : 2 ≤ np)
    (_hwlen : weights.length = nw) (_hnw : nw = np) :
    nurbs__makePolyline points np = none
      ∧ nurbs__makeRationalBezier points np weights nw = none :=
  ⟨rfl, rfl⟩

/-- C3 (witness): the amended statement at two points with two unit weights. -/
theorem null_on_valid_input_witness :
    ([(⟨0, 0, 0⟩ : nurbs_Point ℚ), ⟨1, 0, 0⟩].length = 2 ∧ 2 ≤ 2
      ∧ [(1 : ℚ), 1].length = 2)
    ∧ nurbs__makePolyline [(⟨0, 0, 0⟩ : nurbs_Point ℚ), ⟨1, 0, 0⟩] 2 = none
    ∧ nurbs__makeRationalBezier [(⟨0, 0, 0⟩ : nurbs_Point ℚ), ⟨1, 0, 0⟩] 2 [(1 : ℚ), 1] 2
        = none :=
  ⟨⟨rfl, le_refl 2, rfl⟩,
    null_on_valid_input [(⟨0, 0, 0⟩ : nurbs_Point ℚ), ⟨1, 0, 0⟩] 2 [(1 : ℚ), 1] 2
      rfl (le_refl 2) rfl rfl⟩

/-- C9: for every center, xaxis, yaxis, radius, minAngle and maxAngle, and whatever the
ellipse-arc builder and the two vector operations are, `nurbs__makeArc` returns exactly what
the builder returns on the same center, the axes `radius * normalized(xaxis)` and
`radius * normalized(yaxis)`, and the same minAngle and maxAngle in the same order. -/
theorem makeArc_refines_spec {R : Type}
    (Vecmul : R → nurbs_Vector R → nurbs_Vector R)
    (Vecnormalized : nurbs_Vector R → nurbs_Vector R)
    (builder :
      nurbs_Point R → nurbs_Vector R → nurbs_Vector R → R → R → Option (nurbs_CurveData R))
    (center : nurbs_Point R) (xaxis yaxis : nurbs_Vector R) (radius minAngle maxAngle : R) :
    nurbs__makeArc Vecmul Vecnormalized builder center xaxis yaxis radius minAngle maxAngle
      = nurbs__makeArc_spec Vecmul Vecnormalized builder
          center xaxis yaxis radius minAngle maxAngle :=
  rfl

/-! ## Properties of the data model -/

/-- C5 (counterexample): the element type of the `cv` array has no weight component.  No way
of reading a weight off a `nurbs_Point` can tell the homogeneous tuples `(2, 0, 0, 1)` and
`(2, 0, 0, 2)` apart, since a point with coordinates 2, 0, 0 is one and the same point. -/
theorem cv_element_has_no_weight :
    ¬ ∃ weight : nurbs_Point ℚ → ℚ,
        (∃ p : nurbs_Point ℚ, p.x = 2 ∧ p.y = 0 ∧ p.z = 0 ∧ weight p = 1)
        ∧ (∃ q : nurbs_Point ℚ, q.x = 2 ∧ q.y = 0 ∧ q.z = 0 ∧ weight q = 2) := by
  rintro ⟨weight, ⟨p, hpx, hpy, hpz, hpw⟩, ⟨q, hqx, hqy, hqz, hqw⟩⟩
  have hpq : p = q := by
    rcases p with ⟨px, py, pz⟩
    rcases q with ⟨qx, qy, qz⟩
    simp only at hpx hpy hpz hqx hqy hqz
    rw [hpx, hpy, hpz, hqx, hqy, hqz]
  rw [hpq, hqw] at hpw
  norm_num at hpw

/-- C5 (amended): each control point held by a `nurbs_CurveData` is a `nurbs_Point`, which is
exactly a triple of reals (x, y, z), and a `nurbs_CurveData` is exactly its degree, its two
counts, its array of such triples and its knot array; it has no weight component. -/
theorem cv_element_is_triple {R : Type} :
    Function.Bijective (fun p : nurbs_Point R => (p.x, p.y, p.z))
      ∧ Function.Bijective
          (fun d : nurbs_CurveData R => (d.degree, d.ncv, d.nknots, d.cv, d.knots)) := by
  refine ⟨⟨?_, ?_⟩, ⟨?_, ?_⟩⟩
  · rintro ⟨px, py, pz⟩ ⟨qx, qy, qz⟩ h
    simp only [Prod.mk.injEq] at h
    obtain ⟨h1, h2, h3⟩ := h
    rw [h1, h2, h3]
  · rintro ⟨a, b, c⟩
    exact ⟨⟨a, b, c⟩, rfl⟩
  · rintro ⟨d1, n1, k1, c1, u1⟩ ⟨d2, n2, k2, c2, u2⟩ h
    simp only [Prod.mk.injEq] at h
    obtain ⟨h1, h2, h3, h4, h5⟩ := h
    rw [h1, h2, h3, h4, h5]
  · rintro ⟨a, b, c, d, e⟩
    exact ⟨⟨a, b, c, d, e⟩, rfl⟩

/-! ## Properties of the declared query surface -/

/-- C6: for every curve (its knot array having `ncv + degree + 1` entries) and every
parameter, reversing twice leaves evaluation unchanged: whatever function of the curve and
the parameter `nurbs_curve_point` is, its value on the twice-reversed curve at `u` equals its
value on the curve at `u`. -/
theorem reverse_twice_same_point {R : Type} [AddCommGroup R] (curve : nurbs_Curve R)
    (hk : curve.nurbs_data.knots.length
      = curve.nurbs_data.ncv + curve.nurbs_data.degree + 1) :
    ∀ (nurbs_curve_point : nurbs_Curve R → R → nurbs_Point R) (u : R),
      nurbs_curve_point (nurbs_curve_reverse (nurbs_curve_reverse curve)) u
        = nurbs_curve_point curve u := by
  intro nurbs_curve_point u
  rw [nurbs_curve_reverse_reverse curve hk]

/-- C6 (witness): a clamped quadratic curve with four control points over the rationals. -/
theorem reverse_twice_same_point_witness :
    ([(0 : ℚ), 0, 0, 1, 3, 3, 3].length = 4 + 2 + 1)
    ∧ ∀ (nurbs_curve_point : nurbs_Curve ℚ → ℚ → nurbs_Point ℚ) (u : ℚ),
        nurbs_curve_point
            (nurbs_curve_reverse (nurbs_curve_reverse
              ⟨0, ⟨2, 4, 7, [⟨0, 0, 0⟩, ⟨1, 2, 0⟩, ⟨2, 0, 0⟩, ⟨4, 4, 4⟩],
                [0, 0, 0, 1, 3, 3, 3]⟩⟩)) u
          = nurbs_curve_point
              ⟨0, ⟨2, 4, 7, [⟨0, 0, 0⟩, ⟨1, 2, 0⟩, ⟨2, 0, 0⟩, ⟨4, 4, 4⟩],
                [0, 0, 0, 1, 3, 3, 3]⟩⟩ u :=
  ⟨rfl,
    reverse_twice_same_point
      ⟨0, ⟨2, 4, 7, [⟨0, 0, 0⟩, ⟨1, 2, 0⟩, ⟨2, 0, 0⟩, ⟨4, 4, 4⟩], [0, 0, 0, 1, 3, 3, 3]⟩⟩
      rfl⟩

/-- C7: for every curve with domain `[uMin, uMax]` and every split parameter `u` with
`u ≤ uMin` or `u ≥ uMax`, `nurbs_curve_split` fails with `InvalidSplitParameter` and its
output count is zero. -/
theorem split_outside_domain_fails {R : Type} [LinearOrderedField R] (curve : nurbs_Curve R)
    (u : R)
    (hu : u ≤ (nurbs_curve_domain curve).1 ∨ (nurbs_curve_domain curve).2 ≤ u) :
    nurbs_curve_split curve u = .error .InvalidSplitParameter
      ∧ nurbs_outputCount (nurbs_curve_split curve u) = 0 := by
  have hguard :
      ¬ ((nurbs_curve_domain curve).1 < u ∧ u < (nurbs_curve_domain curve).2) := by
    rintro ⟨h1, h2⟩
    rcases hu with h | h
    · exact absurd h1 (not_lt.mpr h)
    · exact absurd h2 (not_lt.mpr h)
  have hres : nurbs_curve_split curve u = .error .InvalidSplitParameter := by
    unfold nurbs_curve_split
    simp only [hguard, if_false]
  exact ⟨hres, by rw [hres]; rfl⟩

/-- C7 (witness): the line from (0, 0, 0) to (10, 0, 0) with domain `[0, 1]`, split at its
domain end `u = 1`. -/
theorem split_outside_domain_fails_witness :
    ((1 : ℚ) ≤ (nurbs_curve_domain
        (⟨6, ⟨1, 2, 4, [⟨0, 0, 0⟩, ⟨10, 0, 0⟩], [0, 0, 1, 1]⟩⟩ : nurbs_Curve ℚ)).1
      ∨ (nurbs_curve_domain
        (⟨6, ⟨1, 2, 4, [⟨0, 0, 0⟩, ⟨10, 0, 0⟩], [0, 0, 1, 1]⟩⟩ : nurbs_Curve ℚ)).2 ≤ 1)
    ∧ (nurbs_curve_split
          (⟨6, ⟨1, 2, 4, [⟨0, 0, 0⟩, ⟨10, 0, 0⟩], [0, 0, 1, 1]⟩⟩ : nurbs_Curve ℚ) 1
        = .error .InvalidSplitParameter
      ∧ nurbs_outputCount (nurbs_curve_split
          (⟨6, ⟨1, 2, 4, [⟨0, 0, 0⟩, ⟨10, 0, 0⟩], [0, 0, 1, 1]⟩⟩ : nurbs_Curve ℚ) 1) = 0) :=
  ⟨by decide,
    split_outside_domain_fails
      (⟨6, ⟨1, 2, 4, [⟨0, 0, 0⟩, ⟨10, 0, 0⟩], [0, 0, 1, 1]⟩⟩ : nurbs_Curve ℚ) 1
      (by decide)⟩

/-! ## The axes of an arc -/

/-- C10: over the reals, with `nurbs__Vecnormalized(v) = v / |v|` (for non-zero `v`) and
`nurbs__Vecmul(s, v) = s * v`: for non-zero xaxis and yaxis and every radius, the two axis
vectors that `nurbs__makeArc` hands to the ellipse-arc builder, whatever that builder is,
both have Euclidean length `|radius|`, and they are the multiples `(radius / |xaxis|) * xaxis`
and `(radius / |yaxis|) * yaxis` of the input axes. -/
theorem makeArc_axes_have_length_radius
    (Vecmul : ℝ → nurbs_Vector ℝ → nurbs_Vector ℝ)
    (Vecnormalized : nurbs_Vector ℝ → nurbs_Vector ℝ)
    (center : nurbs_Point ℝ) (xaxis yaxis : nurbs_Vector ℝ) (radius minAngle maxAngle : ℝ)
    (hmul : ∀ s v, Vecmul s v = nurbs_Vector.scale s v)
    (hnorm : ∀ v, v ≠ ⟨0, 0, 0⟩ → Vecnormalized v = v.unit Real.sqrt)
    (hx : xaxis ≠ ⟨0, 0, 0⟩) (hy : yaxis ≠ ⟨0, 0, 0⟩) :
    ∃ X Y : nurbs_Vector ℝ,
      (∀ builder :
          nurbs_Point ℝ → nurbs_Vector ℝ → nurbs_Vector ℝ → ℝ → ℝ
            → Option (nurbs_CurveData ℝ),
        nurbs__makeArc Vecmul Vecnormalized builder center xaxis yaxis radius minAngle maxAngle
          = builder center X Y minAngle maxAngle)
      ∧ X.length Real.sqrt = |radius|
      ∧ Y.length Real.sqrt = |radius|
      ∧ X = nurbs_Vector.scale (radius / xaxis.length Real.sqrt) xaxis
      ∧ Y = nurbs_Vector.scale (radius / yaxis.length Real.sqrt) yaxis := by
  refine ⟨Vecmul radius (Vecnormalized xaxis), Vecmul radius (Vecnormalized yaxis),
    fun _ => rfl, ?_, ?_, ?_, ?_⟩
  · rw [hmul, hnorm xaxis hx]
    exact nurbs_Vector.length_scale_unit radius xaxis hx
  · rw [hmul, hnorm yaxis hy]
    exact nurbs_Vector.length_scale_unit radius yaxis hy
  · rw [hmul, hnorm xaxis hx]
    exact nurbs_Vector.scale_unit_parallel radius xaxis
  · rw [hmul, hnorm yaxis hy]
    exact nurbs_Vector.scale_unit_parallel radius yaxis

/-- C10 (witness): the axes (3, 0, 4) and (0, 2, 0), of lengths 5 and 2, with radius 7. -/
theorem makeArc_axes_have_length_radius_witness :
    ((⟨3, 0, 4⟩ : nurbs_Vector ℝ) ≠ ⟨0, 0, 0⟩ ∧ (⟨0, 2, 0⟩ : nurbs_Vector ℝ) ≠ ⟨0, 0, 0⟩)
    ∧ ∃ X Y : nurbs_Vector ℝ,
      (∀ builder :
          nurbs_Point ℝ → nurbs_Vector ℝ → nurbs_Vector ℝ → ℝ → ℝ
            → Option (nurbs_CurveData ℝ),
        nurbs__makeArc nurbs_Vector.scale (nurbs_Vector.unit Real.sqrt) builder
            ⟨0, 0, 0⟩ ⟨3, 0, 4⟩ ⟨0, 2, 0⟩ 7 0 1
          = builder ⟨0, 0, 0⟩ X Y 0 1)
      ∧ X.length Real.sqrt = |(7 : ℝ)|
      ∧ Y.length Real.sqrt = |(7 : ℝ)|
      ∧ X = nurbs_Vector.scale (7 / (⟨3, 0, 4⟩ : nurbs_Vector ℝ).length Real.sqrt) ⟨3, 0, 4⟩
      ∧ Y = nurbs_Vector.scale (7 / (⟨0, 2, 0⟩ : nurbs_Vector ℝ).length Real.sqrt) ⟨0, 2, 0⟩ :=
  ⟨⟨by simp, by simp⟩,
    makeArc_axes_have_length_radius nurbs_Vector.scale (nurbs_Vector.unit Real.sqrt)
      ⟨0, 0, 0⟩ ⟨3, 0, 4⟩ ⟨0, 2, 0⟩ 7 0 1 (fun _ _ => rfl) (fun _ _ => rfl)
      (by simp) (by simp)⟩
